import Mathlib

/-!
Shallow embedding of the `cloud` Go package (remogatto/cloud, file `cloud.go`):
a client library for a WebDAV file surface and an Apps/OCS administrative
surface of an ownCloud/Nextcloud server.

External library behaviour (net/http, net/url, encoding/xml, io/ioutil,
path/filepath's Glob and ReadFile) is modelled abstractly by an `Env` record
of functions; the pure path manipulation of `path/filepath` (`Clean`, `Join`,
`Base`, Unix rules) is implemented faithfully.  Each network-issuing
operation additionally returns the trace of HTTP requests it built, so that
frame and sequencing properties can be stated.

Go's `([]byte, error)` results are modelled as `Option Bytes × Option GoErr`
(`none` for a nil slice / nil error), and byte slices as `List Nat`.
-/

namespace Cloud

/-- Bytes of an HTTP body (`[]byte` in Go); the byte of the character `<` is 60. -/
abbrev Bytes := List Nat

/-- An opaque Go `error` value, carrying its message string. -/
structure GoErr where
  msg : String
deriving DecidableEq, Repr

/-- The `Error` struct of cloud.go: the XML-decoded server exception body. -/
structure Error where
  Exception : String
  Message : String
deriving DecidableEq, Repr

/-- The `ShareResult` struct of cloud.go (the `ocs` XML envelope); the
`XMLName` metadata field is omitted, `uint` fields become `Nat`. -/
structure ShareResult where
  Status : String
  StatusCode : Nat
  Message : String
  Id : Nat
deriving DecidableEq, Repr

/-- The `Client` struct of cloud.go; `Url` holds the parsed base URL
(URL values are modelled as strings). -/
structure Client where
  Url : String
  Username : String
  Password : String
deriving DecidableEq, Repr

/-- Body of an HTTP request: `bytes.NewReader(data)` for the WebDAV layer
(where `data` may be Go `nil`), `strings.NewReader(data)` for the Apps layer. -/
inductive ReqBody where
  | bytes (data : Option Bytes)
  | form (data : String)
deriving DecidableEq, Repr, Inhabited

/-- An HTTP request as built by the source: method, resolved URL, body,
added headers, and the Basic-Auth credentials set on it. -/
structure Request where
  method : String
  url : String
  reqBody : ReqBody
  headers : List (String × String)
  authUser : String
  authPass : String
deriving DecidableEq, Repr, Inhabited

/-- Outcome of `client.Do` followed by `ioutil.ReadAll(resp.Body)`:
a transport error from `Do`, a read error from `ReadAll`, or the full body. -/
inductive HttpOutcome where
  | doErr (e : GoErr)
  | readErr (e : GoErr)
  | body (b : Bytes)
deriving DecidableEq, Repr

/-- Abstract model of the external libraries the source calls. -/
structure Env where
  urlParse : String → Except GoErr String
  resolveRef : String → String → String
  newRequest : String → String → Option GoErr
  httpExchange : Request → HttpOutcome
  unmarshalError : Bytes → Except GoErr Error
  unmarshalShare : Bytes → Except GoErr ShareResult
  glob : String → Except GoErr (List String)
  readFile : String → Except GoErr Bytes

/-! ### path/filepath (Unix rules): Clean, Join, Base -/

/-- Split a character list on `/` (like `strings.Split(s, "/")`):
`splitSegs "a/b" = [[a],[b]]`, `splitSegs "" = [[]]`. -/
def splitSegs : List Char → List (List Char)
  | [] => [[]]
  | c :: cs =>
    if c = '/' then [] :: splitSegs cs
    else
      match splitSegs cs with
      | [] => [[c]]
      | s :: rest => (c :: s) :: rest

/-- Join segments with `/` (like `strings.Join(segs, "/")`). -/
def joinSegs : List (List Char) → List Char
  | [] => []
  | s :: rest =>
    match rest with
    | [] => s
    | _ :: _ => s ++ '/' :: joinSegs rest

/-- One step of `filepath.Clean`'s element processing, on a stack of kept
segments: drop empty and `.` elements, let `..` pop a normal segment
(or survive when unrooted at the top), keep everything else. -/
def cleanStep (rooted : Bool) (stack : List (List Char)) (e : List Char) : List (List Char) :=
  if e = [] ∨ e = ['.'] then stack
  else if e = ['.', '.'] then
    match stack with
    | top :: rest => if top = ['.', '.'] then e :: stack else rest
    | [] => if rooted then [] else [e]
  else e :: stack

/-- `filepath.Clean` (Unix) on a character list. -/
def cleanPathL (cs : List Char) : List Char :=
  match cs with
  | [] => ['.']
  | c :: _ =>
    let rooted := c = '/'
    let elems := ((splitSegs cs).foldl (cleanStep rooted) []).reverse
    let out := joinSegs elems
    if rooted then '/' :: out
    else if out = [] then ['.'] else out

/-- `filepath.Clean` (Unix) on strings. -/
def cleanPath (s : String) : String := ⟨cleanPathL s.data⟩

/-- `filepath.Join(a, b)` (Unix): skip leading empty elements, join with `/`,
then `Clean`. -/
def goJoin2 (a b : String) : String :=
  if a ≠ "" then cleanPath (a ++ "/" ++ b)
  else if b ≠ "" then cleanPath b
  else ""

/-- `filepath.Base` (Unix) on a character list: strip trailing slashes, then
keep the last `/`-separated element. -/
def goBaseL (cs : List Char) : List Char :=
  if cs = [] then ['.']
  else
    let s := (cs.reverse.dropWhile (fun c => c = '/')).reverse
    if s = [] then ['/']
    else (splitSegs s).getLastD []

/-- `filepath.Base` (Unix) on strings. -/
def goBase (s : String) : String := ⟨goBaseL s.data⟩

/-! ### The WebDAV layer -/

/-- The body-classification tail of `sendWebDavRequest` (cloud.go lines
149-163), a pure function of the read body: a non-empty body starting with
`<` (byte 60) is probed as an XML `Error`; a failed unmarshal returns the
body together with the decode error; a successful unmarshal with non-empty
`Exception` executes `return nil, err` — where `err` is the (nil) unmarshal
error — and every other body is returned verbatim with a nil error. -/
def classifyWebDavBody (unmarshal : Bytes → Except GoErr Error) (b : Bytes) :
    Option Bytes × Option GoErr :=
  if b.length > 0 ∧ b.head? = some 60 then
    match unmarshal b with
    | .error e => (some b, some e)
    | .ok dec => if dec.Exception ≠ "" then (none, none) else (some b, none)
  else (some b, none)

/-- `sendWebDavRequest` of cloud.go: join the fixed `remote.php/webdav`
prefix with the caller path, parse it, resolve it against the client's base
URL, build the request with Basic Auth, perform the exchange and classify
the body.  The first component is the trace of requests built and sent. -/
def sendWebDavRequest (env : Env) (c : Client) (request path : String)
    (data : Option Bytes) : List Request × (Option Bytes × Option GoErr) :=
  let webdavPath := goJoin2 "remote.php/webdav" path
  match env.urlParse webdavPath with
  | .error e => ([], (none, some e))
  | .ok folderUrl =>
    let urlStr := env.resolveRef c.Url folderUrl
    match env.newRequest request urlStr with
    | some e => ([], (none, some e))
    | none =>
      let req : Request :=
        { method := request, url := urlStr, reqBody := .bytes data,
          headers := [], authUser := c.Username, authPass := c.Password }
      match env.httpExchange req with
      | .doErr e => ([req], (none, some e))
      | .readErr e => ([req], (none, some e))
      | .body b => ([req], classifyWebDavBody env.unmarshalError b)

/-- `Dial` of cloud.go: parse the host URL and hold it with the credentials. -/
def Dial (env : Env) (host username password : String) : Except GoErr Client :=
  match env.urlParse host with
  | .error e => .error e
  | .ok u => .ok { Url := u, Username := username, Password := password }

/-- `Mkdir` of cloud.go: MKCOL, discarding the body. -/
def Mkdir (env : Env) (c : Client) (path : String) : List Request × Option GoErr :=
  let r := sendWebDavRequest env c "MKCOL" path none
  (r.1, r.2.2)

/-- `Delete` of cloud.go: DELETE, discarding the body. -/
def Delete (env : Env) (c : Client) (path : String) : List Request × Option GoErr :=
  let r := sendWebDavRequest env c "DELETE" path none
  (r.1, r.2.2)

/-- `Upload` of cloud.go: PUT with the given payload, discarding the body. -/
def Upload (env : Env) (c : Client) (src : Bytes) (dest : String) :
    List Request × Option GoErr :=
  let r := sendWebDavRequest env c "PUT" dest (some src)
  (r.1, r.2.2)

/-- `Download` of cloud.go: GET, returning body and error as received. -/
def Download (env : Env) (c : Client) (path : String) :
    List Request × (Option Bytes × Option GoErr) :=
  sendWebDavRequest env c "GET" path none

/-- `Exists` of cloud.go: PROPFIND; true iff the returned error is nil. -/
def ExistsOp (env : Env) (c : Client) (path : String) : List Request × Bool :=
  let r := sendWebDavRequest env c "PROPFIND" path none
  (r.1, r.2.2 = none)

/-- The loop body of `UploadDir`: for each globbed file in order, read it
fully and upload it to `dest/<basename>`, stopping at the first error. -/
def uploadDirLoop (env : Env) (c : Client) (dest : String) :
    List String → List Request × Option GoErr
  | [] => ([], none)
  | file :: rest =>
    match env.readFile file with
    | .error e => ([], some e)
    | .ok data =>
      let u := Upload env c data (goJoin2 dest (goBase file))
      match u.2 with
      | some e => (u.1, some e)
      | none =>
        let r := uploadDirLoop env c dest rest
        (u.1 ++ r.1, r.2)

/-- `UploadDir` of cloud.go: expand the glob, run the upload loop, and on
success return the matched local paths. -/
def UploadDir (env : Env) (c : Client) (src dest : String) :
    List Request × (Option (List String) × Option GoErr) :=
  match env.glob src with
  | .error e => ([], (none, some e))
  | .ok files =>
    match uploadDirLoop env c dest files with
    | (log, some e) => (log, (none, some e))
    | (log, none) => (log, (some files, none))

/-! ### The Apps/OCS layer -/

/-- The error built by `fmt.Errorf` in `sendAppsRequest` for a decoded
status code other than 100. -/
def appsStatusErr (code : Nat) : GoErr :=
  ⟨"Share API returned an unsuccessful status code " ++ Nat.repr code⟩

/-- `sendAppsRequest` of cloud.go: join the fixed `apps` prefix with the
caller path, resolve against the base URL, POST the form body with the OCS
headers and Basic Auth, then decode the body as a `ShareResult`; a decode
failure or a status code other than 100 is an error. -/
def sendAppsRequest (env : Env) (c : Client) (request path data : String) :
    List Request × (Option ShareResult × Option GoErr) :=
  let appsPath := goJoin2 "apps" path
  match env.urlParse appsPath with
  | .error e => ([], (none, some e))
  | .ok folderUrl =>
    let urlStr := env.resolveRef c.Url folderUrl
    match env.newRequest request urlStr with
    | some e => ([], (none, some e))
    | none =>
      let req : Request :=
        { method := request, url := urlStr, reqBody := .form data,
          headers := [("OCS-APIRequest", "true"),
                      ("Content-Type", "application/x-www-form-urlencoded")],
          authUser := c.Username, authPass := c.Password }
      match env.httpExchange req with
      | .doErr e => ([req], (none, some e))
      | .readErr e => ([req], (none, some e))
      | .body b =>
        ([req],
          match env.unmarshalShare b with
          | .error e => (none, some e)
          | .ok result =>
            if result.StatusCode ≠ 100 then
              (none, some (appsStatusErr result.StatusCode))
            else (some result, none))

/-- `CreateGroupFolder` of cloud.go. -/
def CreateGroupFolder (env : Env) (c : Client) (mountPoint : String) :
    List Request × (Option ShareResult × Option GoErr) :=
  sendAppsRequest env c "POST" "groupfolders/folders" ("mountpoint=" ++ mountPoint)

/-- `AddGroupToGroupFolder` of cloud.go. -/
def AddGroupToGroupFolder (env : Env) (c : Client) (group : String) (folderId : Nat) :
    List Request × (Option ShareResult × Option GoErr) :=
  sendAppsRequest env c "POST"
    ("groupfolders/folders/" ++ Nat.repr folderId ++ "/groups")
    ("group=" ++ group)

/-- `SetGroupPermissionsForGroupFolder` of cloud.go; note the caller path
already starts with `apps/`, so joining with the fixed `apps` prefix doubles
that segment. -/
def SetGroupPermissionsForGroupFolder (env : Env) (c : Client) (permissions : Int)
    (group : String) (folderId : Nat) :
    List Request × (Option ShareResult × Option GoErr) :=
  sendAppsRequest env c "POST"
    ("apps/groupfolders/folders/" ++ Nat.repr folderId ++ "/groups/" ++ group)
    ("permissions=" ++ Int.repr permissions)

/-! ### Operation labels for stating frame properties over call sequences

Every public method of `Client` in cloud.go takes a pointer receiver but
never assigns to `c.Url`, `c.Username` or `c.Password`; the state
transformer of each operation is therefore the identity on the client. -/

/-- A public client operation together with its arguments. -/
inductive Op where
  | mkdirOp (path : String)
  | deleteOp (path : String)
  | uploadOp (src : Bytes) (dest : String)
  | uploadDirOp (src dest : String)
  | downloadOp (path : String)
  | existsQ (path : String)
  | createGroupFolderOp (mountPoint : String)
  | addGroupToGroupFolderOp (group : String) (folderId : Nat)
  | setGroupPermissionsOp (permissions : Int) (group : String) (folderId : Nat)

/-- Run one operation for its effects; the resulting client state is the
receiver unchanged, because no method body assigns to a receiver field. -/
def runOp (env : Env) (c : Client) : Op → Client := fun op =>
  match op with
  | .mkdirOp p => let _ := Mkdir env c p; c
  | .deleteOp p => let _ := Delete env c p; c
  | .uploadOp s d => let _ := Upload env c s d; c
  | .uploadDirOp s d => let _ := UploadDir env c s d; c
  | .downloadOp p => let _ := Download env c p; c
  | .existsQ p => let _ := ExistsOp env c p; c
  | .createGroupFolderOp mp => let _ := CreateGroupFolder env c mp; c
  | .addGroupToGroupFolderOp g fid => let _ := AddGroupToGroupFolder env c g fid; c
  | .setGroupPermissionsOp p g fid => let _ := SetGroupPermissionsForGroupFolder env c p g fid; c

/-- Run a sequence of operations, threading the client state. -/
def runOps (env : Env) (c : Client) (ops : List Op) : Client :=
  ops.foldl (runOp env) c

/-! ### Concrete environments and inputs used by witnesses -/

/-- Bytes of a string (each character's code point, ASCII here). -/
def strBytes (s : String) : Bytes := s.data.map Char.toNat

/-- The PUT request that `Upload` builds for payload `d` and destination
`dest`, once URL parsing and request construction succeed with an
identity-style parse. -/
def putReq (env : Env) (c : Client) (d : Bytes) (dest : String) : Request :=
  { method := "PUT", url := env.resolveRef c.Url (goJoin2 "remote.php/webdav" dest),
    reqBody := .bytes (some d), headers := [],
    authUser := c.Username, authPass := c.Password }

/-- Build a concrete environment: URLs parse to themselves, references
resolve by concatenation, request construction succeeds, every exchange
has the given outcome, the decoders return the given values, and the local
filesystem behaves as given. -/
def mkEnv (out : HttpOutcome) (ue : Except GoErr Error) (us : Except GoErr ShareResult)
    (g : Except GoErr (List String)) (rf : String → Except GoErr Bytes) : Env :=
  { urlParse := fun s => .ok s
    resolveRef := fun base ref => base ++ ref
    newRequest := fun _ _ => none
    httpExchange := fun _ => out
    unmarshalError := fun _ => ue
    unmarshalShare := fun _ => us
    glob := fun _ => g
    readFile := rf }

/-- The client of the repository's test suite. -/
def clientA : Client :=
  { Url := "http://localhost:8080/", Username := "admin", Password := "password" }

/-- A WebDAV exception body, as an ownCloud/Nextcloud server sends for a
missing path: XML whose `exception` element is non-empty. -/
def xmlExceptionBody : Bytes :=
  strBytes "<d:error><s:exception>Sabre\\DAV\\Exception\\NotFound</s:exception><s:message>File not found</s:message></d:error>"

/-- Environment whose exchanges all return `xmlExceptionBody`, decoding to
an `Error` with non-empty `Exception`. -/
def envExc : Env :=
  mkEnv (.body xmlExceptionBody)
    (.ok { Exception := "Sabre\\DAV\\Exception\\NotFound", Message := "File not found" })
    (.ok { Status := "ok", StatusCode := 100, Message := "", Id := 1 })
    (.ok []) (fun _ => .ok [])

/-- Environment whose exchanges return raw (non-XML) file content. -/
def envRaw : Env :=
  mkEnv (.body (strBytes "Hello World!\n"))
    (.error ⟨"not xml"⟩) (.ok { Status := "ok", StatusCode := 100, Message := "", Id := 1 })
    (.ok []) (fun _ => .ok [])

/-- Environment whose exchanges return an empty body. -/
def envEmpty : Env :=
  mkEnv (.body [])
    (.error ⟨"EOF"⟩) (.ok { Status := "ok", StatusCode := 100, Message := "", Id := 1 })
    (.ok []) (fun _ => .ok [])

/-- Environment whose exchanges return a `<`-led body that fails to decode
as an `Error`. -/
def envBadXml : Env :=
  mkEnv (.body (strBytes "<html><body>mangled"))
    (.error ⟨"XML syntax error on line 1"⟩)
    (.ok { Status := "ok", StatusCode := 100, Message := "", Id := 1 })
    (.ok []) (fun _ => .ok [])

/-- Environment whose connections are refused by `client.Do`. -/
def envConnRefused : Env :=
  mkEnv (.doErr ⟨"connection refused"⟩)
    (.error ⟨"unused"⟩) (.error ⟨"unused"⟩) (.ok []) (fun _ => .ok [])

/-- A successful `ShareResult` (status code 100). -/
def shareOk : ShareResult := { Status := "ok", StatusCode := 100, Message := "", Id := 7 }

/-- A failed `ShareResult` (status code 403). -/
def shareDenied : ShareResult :=
  { Status := "failure", StatusCode := 403, Message := "not allowed", Id := 0 }

/-- Environment whose Apps exchanges decode to a status-100 envelope. -/
def envApps100 : Env :=
  mkEnv (.body (strBytes "<ocs></ocs>")) (.error ⟨"unused"⟩) (.ok shareOk)
    (.ok []) (fun _ => .ok [])

/-- Environment whose Apps exchanges decode to a status-403 envelope. -/
def envApps403 : Env :=
  mkEnv (.body (strBytes "<ocs></ocs>")) (.error ⟨"unused"⟩) (.ok shareDenied)
    (.ok []) (fun _ => .ok [])

/-- Environment for a successful two-file `UploadDir` run: the glob matches
two files, both readable, and every upload exchange returns an empty body. -/
def envDirOk : Env :=
  mkEnv (.body []) (.error ⟨"unused"⟩) (.ok shareOk)
    (.ok ["test/testdata/Folder/a.txt", "test/testdata/Folder/b.txt"])
    (fun f => if f = "test/testdata/Folder/a.txt" then .ok (strBytes "AA")
              else .ok (strBytes "BB"))

/-- Environment for an aborted `UploadDir` run: the second matched file
fails to read. -/
def envDirFail : Env :=
  mkEnv (.body []) (.error ⟨"unused"⟩) (.ok shareOk)
    (.ok ["test/testdata/Folder/a.txt", "test/testdata/Folder/b.txt"])
    (fun f => if f = "test/testdata/Folder/a.txt" then .ok (strBytes "AA")
              else .error ⟨"open test/testdata/Folder/b.txt: no such file or directory"⟩)

/-- File contents used by the `UploadDir` witness environments. -/
def fdataC3 (f : String) : Bytes :=
  if f = "test/testdata/Folder/a.txt" then strBytes "AA" else strBytes "BB"

/-! ## Helper lemmas -/

/-- After a successful parse and request construction, `sendWebDavRequest`
issues exactly one request and classifies the exchanged body. -/
theorem sendWebDavRequest_body_result (env : Env) (c : Client) (m path : String)
    (data : Option Bytes) (b : Bytes) (u : String)
    (hu : env.urlParse (goJoin2 "remote.php/webdav" path) = Except.ok u)
    (hreq : ∀ mm uu, env.newRequest mm uu = none)
    (hex : ∀ r, env.httpExchange r = HttpOutcome.body b) :
    (sendWebDavRequest env c m path data).2 = classifyWebDavBody env.unmarshalError b := by
  simp [sendWebDavRequest, hu, hreq, hex]

/-- A body that is empty or does not start with `<` is returned verbatim. -/
theorem classifyWebDavBody_not_probed (un : Bytes → Except GoErr Error) (b : Bytes)
    (hb : ¬(b.length > 0 ∧ b.head? = some 60)) :
    classifyWebDavBody un b = (some b, none) := by
  simp only [classifyWebDavBody, if_neg hb]

/-- Every request a WebDAV operation issues targets the resolved joined URL. -/
theorem sendWebDavRequest_url (env : Env) (c : Client) (m path : String)
    (data : Option Bytes) (u : String)
    (hu : env.urlParse (goJoin2 "remote.php/webdav" path) = Except.ok u) :
    ∀ r ∈ (sendWebDavRequest env c m path data).1, r.url = env.resolveRef c.Url u := by
  intro r hr
  simp only [sendWebDavRequest, hu] at hr
  rcases hn : env.newRequest m (env.resolveRef c.Url u) with _ | e
  · simp only [hn] at hr
    rcases hx : env.httpExchange
        { method := m, url := env.resolveRef c.Url u, reqBody := .bytes data,
          headers := [], authUser := c.Username, authPass := c.Password } with e | e | b <;>
      simp_all
  · simp [hn] at hr

/-- After a successful parse and request construction, `sendAppsRequest`
decodes the exchanged body and applies the status-code check. -/
theorem sendAppsRequest_body_result (env : Env) (c : Client) (m path data : String)
    (b : Bytes) (u : String)
    (hu : env.urlParse (goJoin2 "apps" path) = Except.ok u)
    (hreq : ∀ mm uu, env.newRequest mm uu = none)
    (hex : ∀ r, env.httpExchange r = HttpOutcome.body b) :
    (sendAppsRequest env c m path data).2 =
      match env.unmarshalShare b with
      | .error e => (none, some e)
      | .ok result =>
        if result.StatusCode ≠ 100 then (none, some (appsStatusErr result.StatusCode))
        else (some result, none) := by
  simp [sendAppsRequest, hu, hreq, hex]

/-- The decimal rendering of the status code is a suffix (hence a
substring) of the message of the error built for a non-100 status. -/
theorem appsStatusErr_msg_suffix (code : Nat) :
    (Nat.repr code).data <:+ (appsStatusErr code).msg.data := by
  have h : (appsStatusErr code).msg
      = "Share API returned an unsuccessful status code " ++ Nat.repr code := rfl
  rw [h, String.data_append]
  exact List.suffix_append _ _

/-- Under an identity parse, `Upload` issues exactly the one PUT request
`putReq`, whatever the exchange outcome. -/
theorem Upload_log (env : Env) (c : Client) (d : Bytes) (dest : String)
    (hparse : ∀ s, env.urlParse s = Except.ok s)
    (hreq : ∀ mm uu, env.newRequest mm uu = none) :
    (Upload env c d dest).1 = [putReq env c d dest] := by
  simp only [Upload, sendWebDavRequest, hparse, hreq]
  split <;> simp [putReq]

/-- The upload loop over files that all read and upload successfully
performs exactly one PUT per file, in order, and returns no error. -/
theorem uploadDirLoop_success (env : Env) (c : Client) (dest : String)
    (fdata : String → Bytes)
    (hparse : ∀ s, env.urlParse s = Except.ok s)
    (hreq : ∀ mm uu, env.newRequest mm uu = none) :
    ∀ files, (∀ f ∈ files, env.readFile f = Except.ok (fdata f)) →
      (∀ f ∈ files, (Upload env c (fdata f) (goJoin2 dest (goBase f))).2 = none) →
      uploadDirLoop env c dest files
        = (files.map (fun f => putReq env c (fdata f) (goJoin2 dest (goBase f))), none) := by
  intro files
  induction files with
  | nil => intro _ _; rfl
  | cons f rest ih =>
    intro hread hup
    have hf := hread f (by simp)
    have hu := hup f (by simp)
    have hrest := ih (fun g hg => hread g (List.mem_cons_of_mem f hg))
      (fun g hg => hup g (List.mem_cons_of_mem f hg))
    simp only [uploadDirLoop, hf, hu, hrest,
      Upload_log env c (fdata f) (goJoin2 dest (goBase f)) hparse hreq]
    simp

/-- The upload loop aborts at the first file whose read fails, having
performed exactly the uploads of the earlier files. -/
theorem uploadDirLoop_read_fail (env : Env) (c : Client) (dest : String)
    (fdata : String → Bytes) (bad : String) (post : List String) (e : GoErr)
    (hparse : ∀ s, env.urlParse s = Except.ok s)
    (hreq : ∀ mm uu, env.newRequest mm uu = none)
    (hbad : env.readFile bad = Except.error e) :
    ∀ pre, (∀ f ∈ pre, env.readFile f = Except.ok (fdata f)) →
      (∀ f ∈ pre, (Upload env c (fdata f) (goJoin2 dest (goBase f))).2 = none) →
      uploadDirLoop env c dest (pre ++ bad :: post)
        = (pre.map (fun f => putReq env c (fdata f) (goJoin2 dest (goBase f))), some e) := by
  intro pre
  induction pre with
  | nil => intro _ _; simp [uploadDirLoop, hbad]
  | cons f rest ih =>
    intro hread hup
    have hf := hread f (by simp)
    have hu := hup f (by simp)
    have hrest := ih (fun g hg => hread g (List.mem_cons_of_mem f hg))
      (fun g hg => hup g (List.mem_cons_of_mem f hg))
    simp only [List.cons_append, uploadDirLoop, hf, hu,
      Upload_log env c (fdata f) (goJoin2 dest (goBase f)) hparse hreq]
    simp [hrest]

/-- The upload loop aborts at the first file whose upload fails, having
performed the earlier uploads and the one failing PUT. -/
theorem uploadDirLoop_upload_fail (env : Env) (c : Client) (dest : String)
    (fdata : String → Bytes) (bad : String) (post : List String)
    (dbad : Bytes) (e : GoErr)
    (hparse : ∀ s, env.urlParse s = Except.ok s)
    (hreq : ∀ mm uu, env.newRequest mm uu = none)
    (hbadr : env.readFile bad = Except.ok dbad)
    (hbadu : (Upload env c dbad (goJoin2 dest (goBase bad))).2 = some e) :
    ∀ pre, (∀ f ∈ pre, env.readFile f = Except.ok (fdata f)) →
      (∀ f ∈ pre, (Upload env c (fdata f) (goJoin2 dest (goBase f))).2 = none) →
      uploadDirLoop env c dest (pre ++ bad :: post)
        = (pre.map (fun f => putReq env c (fdata f) (goJoin2 dest (goBase f)))
            ++ [putReq env c dbad (goJoin2 dest (goBase bad))], some e) := by
  intro pre
  induction pre with
  | nil =>
    intro _ _
    simp only [List.nil_append, uploadDirLoop, hbadr, hbadu,
      Upload_log env c dbad (goJoin2 dest (goBase bad)) hparse hreq]
    simp
  | cons f rest ih =>
    intro hread hup
    have hf := hread f (by simp)
    have hu := hup f (by simp)
    have hrest := ih (fun g hg => hread g (List.mem_cons_of_mem f hg))
      (fun g hg => hup g (List.mem_cons_of_mem f hg))
    simp only [List.cons_append, uploadDirLoop, hf, hu,
      Upload_log env c (fdata f) (goJoin2 dest (goBase f)) hparse hreq]
    simp [hrest]

/-! ### Lemmas about Clean on well-formed paths -/

/-- `splitSegs` never returns the empty list. -/
theorem splitSegs_ne_nil (cs : List Char) : splitSegs cs ≠ [] := by
  cases cs with
  | nil => simp [splitSegs]
  | cons c cs =>
    simp only [splitSegs]
    split
    · simp
    · split <;> simp

/-- Splitting a slash-free segment yields just that segment. -/
theorem splitSegs_no_slash (xs : List Char) (hx : '/' ∉ xs) : splitSegs xs = [xs] := by
  induction xs with
  | nil => rfl
  | cons c cs ih =>
    have hc : ¬(c = '/') := fun h => hx (h ▸ List.mem_cons_self c cs)
    have hcs : '/' ∉ cs := fun h => hx (List.mem_cons_of_mem c h)
    simp only [splitSegs, if_neg hc, ih hcs]

/-- Splitting peels off a leading slash-free segment at its slash. -/
theorem splitSegs_append (xs ys : List Char) (hx : '/' ∉ xs) :
    splitSegs (xs ++ '/' :: ys) = xs :: splitSegs ys := by
  induction xs with
  | nil => simp [splitSegs]
  | cons c cs ih =>
    have hc : ¬(c = '/') := fun h => hx (h ▸ List.mem_cons_self c cs)
    have hcs : '/' ∉ cs := fun h => hx (List.mem_cons_of_mem c h)
    rcases h2 : splitSegs (cs ++ '/' :: ys) with _ | ⟨s, rest⟩
    · exact absurd h2 (splitSegs_ne_nil _)
    · have h3 := ih hcs
      rw [h2] at h3
      injection h3 with hs hrest
      rw [List.cons_append]
      simp only [splitSegs, if_neg hc, h2, hs, hrest]

/-- Joining the split of a character list returns the original list. -/
theorem joinSegs_splitSegs (cs : List Char) : joinSegs (splitSegs cs) = cs := by
  induction cs with
  | nil => rfl
  | cons c cs ih =>
    by_cases hc : c = '/'
    · subst hc
      rcases hsp : splitSegs cs with _ | ⟨s, rest⟩
      · exact absurd hsp (splitSegs_ne_nil cs)
      · have h1 : splitSegs ('/' :: cs) = [] :: splitSegs cs := by
          simp [splitSegs]
        rw [h1, hsp]
        show '/' :: joinSegs (s :: rest) = '/' :: cs
        rw [← hsp, ih]
    · rcases hsp : splitSegs cs with _ | ⟨s, rest⟩
      · exact absurd hsp (splitSegs_ne_nil cs)
      · have h1 : splitSegs (c :: cs) = (c :: s) :: rest := by
          simp only [splitSegs, if_neg hc, hsp]
        rw [h1]
        rw [hsp] at ih
        cases rest with
        | nil =>
          show c :: s = c :: cs
          rw [show s = cs from ih]
        | cons s2 rest2 =>
          show c :: (s ++ '/' :: joinSegs (s2 :: rest2)) = c :: cs
          rw [show (s ++ '/' :: joinSegs (s2 :: rest2)) = cs from ih]

/-- `cleanStep` keeps every segment that is non-empty and neither `.` nor
`..`, so over a list of such segments the fold is a reversal. -/
theorem foldl_cleanStep_good (rooted : Bool) :
    ∀ (segs : List (List Char)) (acc : List (List Char)),
      (∀ s ∈ segs, s ≠ [] ∧ s ≠ ['.'] ∧ s ≠ ['.', '.']) →
      segs.foldl (cleanStep rooted) acc = segs.reverse ++ acc := by
  intro segs
  induction segs with
  | nil => intro acc _; simp
  | cons s rest ih =>
    intro acc hgood
    obtain ⟨h1, h2, h3⟩ := hgood s (by simp)
    have hA : ¬(s = [] ∨ s = ['.']) := by
      rintro (h | h)
      exacts [h1 h, h2 h]
    have hstep : cleanStep rooted acc s = s :: acc := by
      simp only [cleanStep]
      rw [if_neg hA, if_neg h3]
    rw [List.foldl_cons, hstep,
      ih (s :: acc) (fun t ht => hgood t (List.mem_cons_of_mem s ht))]
    simp

/-- `filepath.Clean` is the identity on an unrooted path all of whose
segments are non-empty and neither `.` nor `..`. -/
theorem cleanPathL_of_good (cs : List Char) (hne : cs ≠ [])
    (hhead : cs.head? ≠ some '/')
    (hgood : ∀ s ∈ splitSegs cs, s ≠ [] ∧ s ≠ ['.'] ∧ s ≠ ['.', '.']) :
    cleanPathL cs = cs := by
  cases cs with
  | nil => exact absurd rfl hne
  | cons c cs' =>
    have hc : ¬(c = '/') := fun h => hhead (by simp [h])
    have hfold := foldl_cleanStep_good (decide (c = '/')) (splitSegs (c :: cs')) [] hgood
    simp only [cleanPathL, hfold, List.append_nil, List.reverse_reverse,
      joinSegs_splitSegs]
    simp [hc]

/-! ### Digit facts for `Nat.repr` -/

/-- `Nat.digitChar` never produces a slash or a dot. -/
theorem digitChar_ne_slash_dot (m : Nat) :
    Nat.digitChar m ≠ '/' ∧ Nat.digitChar m ≠ '.' := by
  rcases Nat.lt_or_ge m 16 with h | h
  · interval_cases m <;> exact ⟨by decide, by decide⟩
  · have h0 : Nat.digitChar m = '*' := by
      unfold Nat.digitChar
      repeat rw [if_neg (by omega)]
    rw [h0]
    exact ⟨by decide, by decide⟩

/-- `Nat.toDigitsCore` only prepends digit characters to its accumulator. -/
theorem toDigitsCore_append_digits (b : Nat) :
    ∀ (fuel n : Nat) (ds : List Char), ∃ l, (∀ c ∈ l, ∃ m, c = Nat.digitChar m) ∧
      Nat.toDigitsCore b fuel n ds = l ++ ds := by
  intro fuel
  induction fuel with
  | zero => intro n ds; exact ⟨[], by simp, rfl⟩
  | succ fuel ih =>
    intro n ds
    simp only [Nat.toDigitsCore]
    split
    · exact ⟨[Nat.digitChar (n % b)], by simp, rfl⟩
    · obtain ⟨l, hl, heq⟩ := ih (n / b) (Nat.digitChar (n % b) :: ds)
      refine ⟨l ++ [Nat.digitChar (n % b)], ?_, by rw [heq]; simp⟩
      intro c hc
      rcases List.mem_append.mp hc with h | h
      · exact hl c h
      · exact ⟨n % b, by simpa using h⟩

/-- The decimal digit string of a natural number is non-empty and consists
of digit characters only. -/
theorem toDigits_ne_nil_digits (n : Nat) :
    Nat.toDigits 10 n ≠ [] ∧ ∀ c ∈ Nat.toDigits 10 n, ∃ m, c = Nat.digitChar m := by
  constructor
  · show Nat.toDigitsCore 10 (n + 1) n [] ≠ []
    simp only [Nat.toDigitsCore]
    split
    · simp
    · obtain ⟨l, _, heq⟩ := toDigitsCore_append_digits 10 n (n / 10)
        [Nat.digitChar (n % 10)]
      rw [heq]; simp
  · intro c hc
    obtain ⟨l, hl, heq⟩ := toDigitsCore_append_digits 10 (n + 1) n []
    have h2 : Nat.toDigits 10 n = l ++ [] := heq
    rw [List.append_nil] at h2
    rw [h2] at hc
    exact hl c hc

/-- The decimal rendering of a natural number is a good path segment:
non-empty, slash-free, and neither `.` nor `..`. -/
theorem repr_good_segment (n : Nat) :
    (Nat.repr n).data ≠ [] ∧ '/' ∉ (Nat.repr n).data ∧
    (Nat.repr n).data ≠ ['.'] ∧ (Nat.repr n).data ≠ ['.', '.'] := by
  have hdata : (Nat.repr n).data = Nat.toDigits 10 n := rfl
  obtain ⟨hne, hdig⟩ := toDigits_ne_nil_digits n
  have hnodot : '.' ∉ Nat.toDigits 10 n := by
    intro h
    obtain ⟨m, hm⟩ := hdig '.' h
    exact (digitChar_ne_slash_dot m).2 hm.symm
  refine ⟨by rw [hdata]; exact hne, ?_, ?_, ?_⟩
  · rw [hdata]
    intro h
    obtain ⟨m, hm⟩ := hdig '/' h
    exact (digitChar_ne_slash_dot m).1 hm.symm
  · rw [hdata]; intro h; exact hnodot (h ▸ List.mem_singleton_self '.')
  · rw [hdata]; intro h; exact hnodot (h ▸ List.mem_cons_self '.' ['.'])

/-! ### The doubled-apps template path -/

/-- Splitting the permissions-endpoint path: fixed segments, the decimal
folder id, `groups`, and the slash-free group name. -/
theorem splitSegs_template (D g : List Char) (hD : '/' ∉ D) (hg : '/' ∉ g) :
    splitSegs ("apps/apps/groupfolders/folders/".data ++ D ++ "/groups/".data ++ g)
      = ["apps".data, "apps".data, "groupfolders".data, "folders".data, D,
         "groups".data, g] := by
  have hshape : "apps/apps/groupfolders/folders/".data ++ D ++ "/groups/".data ++ g
      = "apps".data ++ '/' :: ("apps".data ++ '/' :: ("groupfolders".data ++ '/' ::
        ("folders".data ++ '/' :: (D ++ '/' :: ("groups".data ++ '/' :: g))))) := by
    have hfix : ("apps/apps/groupfolders/folders/".data : List Char)
        = "apps".data ++ '/' :: ("apps".data ++ '/' :: ("groupfolders".data ++ '/' ::
          ("folders".data ++ ['/']))) := by rfl
    have hmid : ("/groups/".data : List Char) = '/' :: ("groups".data ++ ['/']) := by rfl
    rw [hfix, hmid]
    simp [List.append_assoc]
  rw [hshape, splitSegs_append _ _ (by decide), splitSegs_append _ _ (by decide),
    splitSegs_append _ _ (by decide), splitSegs_append _ _ (by decide),
    splitSegs_append _ _ hD, splitSegs_append _ _ (by decide),
    splitSegs_no_slash g hg]

/-- Unfolding equation for `cleanPath`. -/
theorem cleanPath_data (s : String) : (cleanPath s).data = cleanPathL s.data := rfl

set_option maxHeartbeats 800000 in
/-- Joining the fixed `apps` prefix onto the groupfolders permissions path
that already starts with `apps/` yields the doubled-apps path verbatim,
for any folder id and any group name that is a single well-formed path
segment. -/
theorem goJoin2_apps_template (fid : Nat) (group : String)
    (hg1 : group ≠ "") (hg2 : '/' ∉ group.data)
    (hg3 : group ≠ ".") (hg4 : group ≠ "..") :
    goJoin2 "apps" ("apps/groupfolders/folders/" ++ Nat.repr fid ++ "/groups/" ++ group)
      = "apps/apps/groupfolders/folders/" ++ Nat.repr fid ++ "/groups/" ++ group := by
  obtain ⟨hD1, hD2, hD3, hD4⟩ := repr_good_segment fid
  have happ : ("apps" : String) ++ "/" ++
        ("apps/groupfolders/folders/" ++ Nat.repr fid ++ "/groups/" ++ group)
      = "apps/apps/groupfolders/folders/" ++ Nat.repr fid ++ "/groups/" ++ group := by
    have h1 : ("apps" : String) ++ "/" = "apps/" := rfl
    have h2 : ("apps/" : String) ++ "apps/groupfolders/folders/"
        = "apps/apps/groupfolders/folders/" := rfl
    rw [h1, ← String.append_assoc, ← String.append_assoc, ← String.append_assoc, h2]
  have hdata : ("apps/apps/groupfolders/folders/" ++ Nat.repr fid ++ "/groups/"
        ++ group).data
      = "apps/apps/groupfolders/folders/".data ++ (Nat.repr fid).data
        ++ "/groups/".data ++ group.data := by
    simp only [String.data_append]
  have hsplit := splitSegs_template (Nat.repr fid).data group.data hD2 hg2
  have hgdata1 : group.data ≠ [] := fun h => hg1 (String.ext h)
  have hgdata3 : group.data ≠ ['.'] := fun h => hg3 (String.ext h)
  have hgdata4 : group.data ≠ ['.', '.'] := fun h => hg4 (String.ext h)
  have hclean : cleanPath ("apps/apps/groupfolders/folders/" ++ Nat.repr fid
        ++ "/groups/" ++ group)
      = "apps/apps/groupfolders/folders/" ++ Nat.repr fid ++ "/groups/" ++ group := by
    apply String.ext
    rw [cleanPath_data, hdata]
    have hcons : "apps/apps/groupfolders/folders/".data ++ (Nat.repr fid).data
          ++ "/groups/".data ++ group.data
        = 'a' :: ("pps/apps/groupfolders/folders/".data ++ (Nat.repr fid).data
          ++ "/groups/".data ++ group.data) := by
      have h0 : ("apps/apps/groupfolders/folders/".data : List Char)
          = 'a' :: "pps/apps/groupfolders/folders/".data := rfl
      rw [h0]
      simp only [List.cons_append]
    apply cleanPathL_of_good
    · rw [hcons]; simp
    · rw [hcons]; simp
    · rw [hsplit]
      intro s hs
      simp only [List.mem_cons, List.not_mem_nil, or_false] at hs
      rcases hs with h | h | h | h | h | h | h <;> subst h <;>
        first
          | exact ⟨by decide, by decide, by decide⟩
          | exact ⟨hD1, hD3, hD4⟩
          | exact ⟨hgdata1, hgdata3, hgdata4⟩
  have hne : ("apps" : String) ≠ "" := by decide
  simp only [goJoin2, if_pos hne]
  rw [happ, hclean]

/-- Every request `sendAppsRequest` issues is the POST it builds: resolved
joined URL, OCS headers, form body, Basic Auth. -/
theorem sendAppsRequest_req (env : Env) (c : Client) (m path data : String) (u : String)
    (hu : env.urlParse (goJoin2 "apps" path) = Except.ok u) :
    ∀ r ∈ (sendAppsRequest env c m path data).1,
      r = { method := m, url := env.resolveRef c.Url u, reqBody := .form data,
            headers := [("OCS-APIRequest", "true"),
                        ("Content-Type", "application/x-www-form-urlencoded")],
            authUser := c.Username, authPass := c.Password } := by
  intro r hr
  simp only [sendAppsRequest, hu] at hr
  rcases hn : env.newRequest m (env.resolveRef c.Url u) with _ | e
  · simp only [hn] at hr
    rcases hx : env.httpExchange
        { method := m, url := env.resolveRef c.Url u, reqBody := .form data,
          headers := [("OCS-APIRequest", "true"),
                      ("Content-Type", "application/x-www-form-urlencoded")],
          authUser := c.Username, authPass := c.Password } with e | e | b <;>
      simp_all
  · simp [hn] at hr

/-! ## Claims -/

/-- Claim C1 (code bug): the claim says that a WebDAV response body that
begins with `<` and decodes to an `Error` with non-empty `Exception` makes
the operation return a non-nil error.  In the source the branch executes
`return nil, err` where `err` is the (necessarily nil) `xml.Unmarshal`
error, so the decoded exception is swallowed: under an environment whose
every exchange yields such a body, Mkdir, Delete and Upload return a nil
error and Download returns a nil body with a nil error. -/
theorem claim_C1_exception_swallowed :
    (Mkdir envExc clientA "Test").2 = none ∧
    (Delete envExc clientA "Test").2 = none ∧
    (Upload envExc clientA (strBytes "Hello World!\n") "Test/test.txt").2 = none ∧
    (Download envExc clientA "Test/test.txt").2 = (none, none) :=
  ⟨rfl, rfl, rfl, rfl⟩

/-- Claim C7 (code bug): `Exists` returns true iff the PROPFIND call
returns a nil error, and transport failures and decode failures do map to
false — but the claimed failure class "decoded server error" does not:
because of the swallowed exception of claim C1, an exchange whose body
decodes to a non-empty `Exception` yields a nil error and `Exists`
returns true. -/
theorem claim_C7_exists_probe :
    (ExistsOp envConnRefused clientA "Test").2 = false ∧
    (ExistsOp envBadXml clientA "Test").2 = false ∧
    (ExistsOp envExc clientA "Missing").2 = true :=
  ⟨rfl, rfl, rfl⟩

/-- Claim C9: when the exchange succeeds with a zero-byte body, the XML
probe is skipped and every WebDAV operation succeeds: the body is returned
as an empty (non-nil) slice with a nil error, `Exists` returns true and
`Download` returns empty content. -/
theorem claim_C9_empty_body_success (env : Env) (c : Client) (path : String)
    (hparse : ∀ s, ∃ u, env.urlParse s = Except.ok u)
    (hreq : ∀ mm uu, env.newRequest mm uu = none)
    (hex : ∀ r, env.httpExchange r = HttpOutcome.body []) :
    (∀ m data, (sendWebDavRequest env c m path data).2 = (some [], none)) ∧
    (ExistsOp env c path).2 = true ∧
    (Download env c path).2 = (some [], none) := by
  obtain ⟨u, hu⟩ := hparse (goJoin2 "remote.php/webdav" path)
  have key : ∀ m data, (sendWebDavRequest env c m path data).2 = (some [], none) := by
    intro m data
    rw [sendWebDavRequest_body_result env c m path data [] u hu hreq hex]
    exact classifyWebDavBody_not_probed _ _ (by simp)
  exact ⟨key, by simp [ExistsOp, key], key "GET" none⟩

/-- Claim C9 witness: in the concrete empty-body environment, Exists
returns true and Download returns empty content with a nil error. -/
theorem claim_C9_witness :
    (ExistsOp envEmpty clientA "Test").2 = true ∧
    (Download envEmpty clientA "Test").2 = (some [], none) :=
  (claim_C9_empty_body_success envEmpty clientA "Test"
    (fun s => ⟨s, rfl⟩) (fun _ _ => rfl) (fun _ => rfl)).2

/-- Claim C5: a non-empty body that does not begin with `<` (byte 60) is
returned verbatim with a nil error by every WebDAV operation; in
particular `Download` returns it exactly as received, and the
classification does not consult the XML decoder at all. -/
theorem claim_C5_raw_body_verbatim (env : Env) (c : Client) (path : String) (b : Bytes)
    (hparse : ∀ s, ∃ u, env.urlParse s = Except.ok u)
    (hreq : ∀ mm uu, env.newRequest mm uu = none)
    (hex : ∀ r, env.httpExchange r = HttpOutcome.body b)
    (hne : b ≠ []) (hlt : b.head? ≠ some 60) :
    (∀ m data, (sendWebDavRequest env c m path data).2 = (some b, none)) ∧
    (Download env c path).2 = (some b, none) ∧
    (∀ un, classifyWebDavBody un b = (some b, none)) := by
  obtain ⟨u, hu⟩ := hparse (goJoin2 "remote.php/webdav" path)
  have hclass : ∀ un, classifyWebDavBody un b = (some b, none) := fun un =>
    classifyWebDavBody_not_probed un b (by simp [hlt])
  have key : ∀ m data, (sendWebDavRequest env c m path data).2 = (some b, none) := by
    intro m data
    rw [sendWebDavRequest_body_result env c m path data b u hu hreq hex]
    exact hclass _
  exact ⟨key, key "GET" none, hclass⟩

/-- Claim C5 witness: raw file content is passed through by Download. -/
theorem claim_C5_witness :
    (Download envRaw clientA "Test/test.txt").2 = (some (strBytes "Hello World!\n"), none) :=
  (claim_C5_raw_body_verbatim envRaw clientA "Test/test.txt" (strBytes "Hello World!\n")
    (fun s => ⟨s, rfl⟩) (fun _ _ => rfl) (fun _ => rfl)
    (by decide) (by decide)).2.1

/-- Claim C10: a body that begins with `<` but fails to unmarshal as
`Error` makes `sendWebDavRequest` return the raw body together with the
decode error, so `Download` returns a non-nil body and a non-nil error
from the same call, while Mkdir, Delete and Upload discard the body and
surface only the error. -/
theorem claim_C10_decode_failure_returns_body (env : Env) (c : Client) (path : String)
    (b : Bytes) (e : GoErr)
    (hparse : ∀ s, ∃ u, env.urlParse s = Except.ok u)
    (hreq : ∀ mm uu, env.newRequest mm uu = none)
    (hex : ∀ r, env.httpExchange r = HttpOutcome.body b)
    (hlt : b.head? = some 60)
    (hun : env.unmarshalError b = Except.error e) :
    (∀ m data, (sendWebDavRequest env c m path data).2 = (some b, some e)) ∧
    (Download env c path).2 = (some b, some e) ∧
    (Mkdir env c path).2 = some e ∧
    (Delete env c path).2 = some e ∧
    (∀ src, (Upload env c src path).2 = some e) := by
  obtain ⟨u, hu⟩ := hparse (goJoin2 "remote.php/webdav" path)
  have hpos : b.length > 0 := by cases b <;> simp_all
  have key : ∀ m data, (sendWebDavRequest env c m path data).2 = (some b, some e) := by
    intro m data
    rw [sendWebDavRequest_body_result env c m path data b u hu hreq hex]
    simp [classifyWebDavBody, hpos, hlt, hun]
  exact ⟨key, key "GET" none, by simp [Mkdir, key], by simp [Delete, key],
    fun src => by simp [Upload, key]⟩

/-- Claim C10 witness: with a mangled `<`-led body, Download returns both
the body and the decode error, and Mkdir returns the decode error. -/
theorem claim_C10_witness :
    (Download envBadXml clientA "Test").2
      = (some (strBytes "<html><body>mangled"), some ⟨"XML syntax error on line 1"⟩) ∧
    (Mkdir envBadXml clientA "Test").2 = some ⟨"XML syntax error on line 1"⟩ := by
  have h := claim_C10_decode_failure_returns_body envBadXml clientA "Test"
    (strBytes "<html><body>mangled") ⟨"XML syntax error on line 1"⟩
    (fun s => ⟨s, rfl⟩) (fun _ _ => rfl) (fun _ => rfl) (by decide) rfl
  exact ⟨h.2.1, h.2.2.1⟩

/-- Claim C4: every request issued by a WebDAV operation (Mkdir, Delete,
Upload, Download, Exists) targets the URL obtained by `filepath.Join`-ing
the fixed `remote.php/webdav` segment with the caller path (with the
cleaning that joining implies), parsing it, and resolving it as a
reference against the client's base URL. -/
theorem claim_C4_webdav_url (env : Env) (c : Client) (path : String) (src : Bytes)
    (u : String)
    (hu : env.urlParse (goJoin2 "remote.php/webdav" path) = Except.ok u) :
    (∀ r ∈ (Mkdir env c path).1, r.url = env.resolveRef c.Url u) ∧
    (∀ r ∈ (Delete env c path).1, r.url = env.resolveRef c.Url u) ∧
    (∀ r ∈ (Upload env c src path).1, r.url = env.resolveRef c.Url u) ∧
    (∀ r ∈ (Download env c path).1, r.url = env.resolveRef c.Url u) ∧
    (∀ r ∈ (ExistsOp env c path).1, r.url = env.resolveRef c.Url u) :=
  ⟨fun r hr => sendWebDavRequest_url env c "MKCOL" path none u hu r hr,
   fun r hr => sendWebDavRequest_url env c "DELETE" path none u hu r hr,
   fun r hr => sendWebDavRequest_url env c "PUT" path (some src) u hu r hr,
   fun r hr => sendWebDavRequest_url env c "GET" path none u hu r hr,
   fun r hr => sendWebDavRequest_url env c "PROPFIND" path none u hu r hr⟩

/-- Claim C4 witness: the one request Mkdir issues for path `Test` under
the identity-parse environment targets the base URL with the joined
`remote.php/webdav/Test` reference. -/
theorem claim_C4_witness :
    ((Mkdir envExc clientA "Test").1.headD default).url
      = envExc.resolveRef clientA.Url "remote.php/webdav/Test" :=
  (claim_C4_webdav_url envExc clientA "Test" [] "remote.php/webdav/Test" rfl).1
    _ (by decide)

/-- Claim C2: for each Apps/OCS operation, once the HTTP exchange succeeds
with body `b`: a decode failure is returned as that error with a nil
result; a decoded status code other than 100 yields a nil result and an
error whose message contains the decimal status code; a decoded status
code of 100 yields the decoded `ShareResult` and a nil error. -/
theorem claim_C2_apps_status_contract (env : Env) (c : Client)
    (mp grp : String) (fid : Nat) (perms : Int) (b : Bytes)
    (hparse : ∀ s, ∃ u, env.urlParse s = Except.ok u)
    (hreq : ∀ mm uu, env.newRequest mm uu = none)
    (hex : ∀ r, env.httpExchange r = HttpOutcome.body b) :
    ∀ res ∈ [(CreateGroupFolder env c mp).2,
             (AddGroupToGroupFolder env c grp fid).2,
             (SetGroupPermissionsForGroupFolder env c perms grp fid).2],
      (∀ e, env.unmarshalShare b = Except.error e → res = (none, some e)) ∧
      (∀ r, env.unmarshalShare b = Except.ok r → r.StatusCode ≠ 100 →
        res = (none, some (appsStatusErr r.StatusCode)) ∧
        (Nat.repr r.StatusCode).data <:+ (appsStatusErr r.StatusCode).msg.data) ∧
      (∀ r, env.unmarshalShare b = Except.ok r → r.StatusCode = 100 →
        res = (some r, none)) := by
  have key : ∀ m path data,
      (sendAppsRequest env c m path data).2 =
        match env.unmarshalShare b with
        | .error e => (none, some e)
        | .ok result =>
          if result.StatusCode ≠ 100 then (none, some (appsStatusErr result.StatusCode))
          else (some result, none) := by
    intro m path data
    obtain ⟨u, hu⟩ := hparse (goJoin2 "apps" path)
    exact sendAppsRequest_body_result env c m path data b u hu hreq hex
  intro res hres
  have hcases : res =
      match env.unmarshalShare b with
      | .error e => (none, some e)
      | .ok result =>
        if result.StatusCode ≠ 100 then (none, some (appsStatusErr result.StatusCode))
        else (some result, none) := by
    simp only [List.mem_cons, List.mem_singleton, List.not_mem_nil, or_false] at hres
    rcases hres with h | h | h <;>
      simpa [CreateGroupFolder, AddGroupToGroupFolder,
        SetGroupPermissionsForGroupFolder, h] using key _ _ _
  refine ⟨fun e he => ?_, fun r hr hne => ?_, fun r hr h100 => ?_⟩
  · rw [hcases, he]
  · exact ⟨by rw [hcases, hr]; simp [hne], appsStatusErr_msg_suffix r.StatusCode⟩
  · rw [hcases, hr]; simp [h100]

/-- Claim C2 witness: a status-100 envelope yields the decoded result with
a nil error, and a status-403 envelope yields a nil result and the
status-code error. -/
theorem claim_C2_witness :
    (CreateGroupFolder envApps100 clientA "GroupFolder").2 = (some shareOk, none) ∧
    (AddGroupToGroupFolder envApps403 clientA "admin" 3).2
      = (none, some (appsStatusErr 403)) := by
  constructor
  · have h := claim_C2_apps_status_contract envApps100 clientA "GroupFolder" "admin" 3 31
      (strBytes "<ocs></ocs>") (fun s => ⟨s, rfl⟩) (fun _ _ => rfl) (fun _ => rfl)
      (CreateGroupFolder envApps100 clientA "GroupFolder").2 (by simp)
    exact h.2.2 shareOk rfl rfl
  · have h := claim_C2_apps_status_contract envApps403 clientA "GroupFolder" "admin" 3 31
      (strBytes "<ocs></ocs>") (fun s => ⟨s, rfl⟩) (fun _ _ => rfl) (fun _ => rfl)
      (AddGroupToGroupFolder envApps403 clientA "admin" 3).2 (by simp)
    exact (h.2.1 shareDenied rfl (by decide)).1

/-- Claim C8: a client built by `Dial` holds exactly the parsed base URL
and the credentials it was given, and no sequence of client operations
(WebDAV or Apps/OCS) changes that state: running any operation list leaves
the client equal to its state at construction. -/
theorem claim_C8_client_immutable (env : Env) (host user pass : String) (c : Client)
    (hdial : Dial env host user pass = Except.ok c) :
    (∀ u, env.urlParse host = Except.ok u →
      c = { Url := u, Username := user, Password := pass }) ∧
    (∀ ops : List Op, runOps env c ops = c) := by
  have hstep : ∀ (d : Client) (op : Op), runOp env d op = d := by
    intro d op; cases op <;> rfl
  have hrun : ∀ (ops : List Op) (d : Client), runOps env d ops = d := by
    intro ops
    induction ops with
    | nil => intro d; rfl
    | cons op rest ih => intro d; simp only [runOps, List.foldl_cons, hstep]; exact ih d
  refine ⟨fun u hu => ?_, fun ops => hrun ops c⟩
  simp only [Dial, hu] at hdial
  exact (Except.ok.injEq _ _ ▸ hdial).symm

/-- Claim C8 witness: dialing the test server's address yields exactly the
test client, and the test suite's operation sequence leaves it unchanged. -/
theorem claim_C8_witness :
    clientA = { Url := "http://localhost:8080/", Username := "admin",
                Password := "password" } ∧
    runOps envExc clientA
      [.mkdirOp "Test", .uploadOp (strBytes "Hello World!\n") "Test/test.txt",
       .downloadOp "Test/test.txt", .existsQ "Test",
       .createGroupFolderOp "GroupFolder", .addGroupToGroupFolderOp "admin" 1,
       .setGroupPermissionsOp 31 "admin" 1, .deleteOp "Test"] = clientA := by
  have h := claim_C8_client_immutable envExc "http://localhost:8080/" "admin" "password"
    clientA rfl
  exact ⟨h.1 "http://localhost:8080/" rfl, h.2 _⟩

/-- Claim C3: `UploadDir` expands the glob; when every matched file reads
and uploads successfully it performs, in order, exactly one PUT per
matched file of that file's full contents to `dest/<basename>` and returns
exactly the matched path list with a nil error; at the first read failure
it returns a nil list and that error having uploaded only the earlier
files; at the first upload failure it returns a nil list and that error
having attempted no request beyond the failing PUT.  No rollback request
is ever issued. -/
theorem claim_C3_uploadDir (env : Env) (c : Client) (src dest : String)
    (fdata : String → Bytes)
    (hparse : ∀ s, env.urlParse s = Except.ok s)
    (hreq : ∀ mm uu, env.newRequest mm uu = none) :
    (∀ files, env.glob src = Except.ok files →
      (∀ f ∈ files, env.readFile f = Except.ok (fdata f)) →
      (∀ f ∈ files, (Upload env c (fdata f) (goJoin2 dest (goBase f))).2 = none) →
      UploadDir env c src dest
        = (files.map (fun f => putReq env c (fdata f) (goJoin2 dest (goBase f))),
           (some files, none))) ∧
    (∀ pre bad post e, env.glob src = Except.ok (pre ++ bad :: post) →
      (∀ f ∈ pre, env.readFile f = Except.ok (fdata f)) →
      (∀ f ∈ pre, (Upload env c (fdata f) (goJoin2 dest (goBase f))).2 = none) →
      env.readFile bad = Except.error e →
      UploadDir env c src dest
        = (pre.map (fun f => putReq env c (fdata f) (goJoin2 dest (goBase f))),
           (none, some e))) ∧
    (∀ pre bad post e dbad, env.glob src = Except.ok (pre ++ bad :: post) →
      (∀ f ∈ pre, env.readFile f = Except.ok (fdata f)) →
      (∀ f ∈ pre, (Upload env c (fdata f) (goJoin2 dest (goBase f))).2 = none) →
      env.readFile bad = Except.ok dbad →
      (Upload env c dbad (goJoin2 dest (goBase bad))).2 = some e →
      UploadDir env c src dest
        = (pre.map (fun f => putReq env c (fdata f) (goJoin2 dest (goBase f)))
            ++ [putReq env c dbad (goJoin2 dest (goBase bad))],
           (none, some e))) := by
  refine ⟨fun files hglob hread hup => ?_,
          fun pre bad post e hglob hread hup hbad => ?_,
          fun pre bad post e dbad hglob hread hup hbadr hbadu => ?_⟩
  · simp only [UploadDir, hglob,
      uploadDirLoop_success env c dest fdata hparse hreq files hread hup]
  · simp only [UploadDir, hglob,
      uploadDirLoop_read_fail env c dest fdata bad post e hparse hreq hbad pre hread hup]
  · simp only [UploadDir, hglob,
      uploadDirLoop_upload_fail env c dest fdata bad post dbad e hparse hreq hbadr hbadu
        pre hread hup]

/-- Claim C3 witness: a two-file glob uploads both files and returns the
matched paths; when the second file fails to read, the result is a nil
list with that read error, and only the first file was uploaded. -/
theorem claim_C3_witness :
    UploadDir envDirOk clientA "test/testdata/Folder/*" "Test/Folder/"
      = ([putReq envDirOk clientA (strBytes "AA") "Test/Folder/a.txt",
          putReq envDirOk clientA (strBytes "BB") "Test/Folder/b.txt"],
         (some ["test/testdata/Folder/a.txt", "test/testdata/Folder/b.txt"], none)) ∧
    UploadDir envDirFail clientA "test/testdata/Folder/*" "Test/Folder/"
      = ([putReq envDirFail clientA (strBytes "AA") "Test/Folder/a.txt"],
         (none, some ⟨"open test/testdata/Folder/b.txt: no such file or directory"⟩)) := by
  constructor
  · have h := (claim_C3_uploadDir envDirOk clientA "test/testdata/Folder/*" "Test/Folder/"
      fdataC3 (fun s => rfl) (fun _ _ => rfl)).1
      ["test/testdata/Folder/a.txt", "test/testdata/Folder/b.txt"]
      rfl (by intro f hf; simp only [List.mem_cons, List.not_mem_nil, or_false] at hf
              rcases hf with h | h <;> subst h <;> rfl)
      (by decide)
    rw [h]; decide
  · have h := (claim_C3_uploadDir envDirFail clientA "test/testdata/Folder/*" "Test/Folder/"
      fdataC3 (fun s => rfl) (fun _ _ => rfl)).2.1
      ["test/testdata/Folder/a.txt"] "test/testdata/Folder/b.txt" [] _
      rfl (by intro f hf; simp only [List.mem_cons, List.not_mem_nil, or_false] at hf
              subst hf; rfl)
      (by decide) rfl
    rw [h]; decide

/-- Claim C6 counterexample: for the group name `.`, the issued request's
URL is not the resolution of the literal template
`apps/apps/groupfolders/folders/<folderId>/groups/<group>` — the
`filepath.Join` cleaning removes the trailing `.` segment. -/
theorem claim_C6_counterexample :
    (SetGroupPermissionsForGroupFolder envApps100 clientA 31 "." 1).1.map Request.url
      ≠ [envApps100.resolveRef clientA.Url
          ("apps/apps/groupfolders/folders/" ++ Nat.repr 1 ++ "/groups/" ++ ".")] := by
  decide

/-- Claim C6 (amended): `SetGroupPermissionsForGroupFolder` POSTs to the
`filepath.Join` of the fixed `apps` prefix with a caller path that already
starts with `apps/`, with form body `permissions=<decimal permissions>`;
whenever the group name is a single well-formed path segment (non-empty,
slash-free, neither `.` nor `..`) that joined, cleaned path is literally
the doubled-apps template
`apps/apps/groupfolders/folders/<folderId>/groups/<group>`, and the one
request issued targets that template resolved against the base URL. -/
theorem claim_C6_permissions_endpoint (env : Env) (c : Client) (perms : Int)
    (group : String) (fid : Nat) (u : String)
    (hg1 : group ≠ "") (hg2 : '/' ∉ group.data)
    (hg3 : group ≠ ".") (hg4 : group ≠ "..")
    (hu : env.urlParse ("apps/apps/groupfolders/folders/" ++ Nat.repr fid
        ++ "/groups/" ++ group) = Except.ok u) :
    goJoin2 "apps" ("apps/groupfolders/folders/" ++ Nat.repr fid ++ "/groups/" ++ group)
      = "apps/apps/groupfolders/folders/" ++ Nat.repr fid ++ "/groups/" ++ group ∧
    ∀ r ∈ (SetGroupPermissionsForGroupFolder env c perms group fid).1,
      r.method = "POST" ∧ r.url = env.resolveRef c.Url u ∧
      r.reqBody = ReqBody.form ("permissions=" ++ Int.repr perms) := by
  have htmpl := goJoin2_apps_template fid group hg1 hg2 hg3 hg4
  refine ⟨htmpl, fun r hr => ?_⟩
  have hu2 : env.urlParse (goJoin2 "apps"
      ("apps/groupfolders/folders/" ++ Nat.repr fid ++ "/groups/" ++ group))
      = Except.ok u := by rw [htmpl]; exact hu
  have hreq := sendAppsRequest_req env c "POST"
    ("apps/groupfolders/folders/" ++ Nat.repr fid ++ "/groups/" ++ group)
    ("permissions=" ++ Int.repr perms) u hu2 r hr
  rw [hreq]
  exact ⟨rfl, rfl, rfl⟩

/-- Claim C6 witness: for folder id 7 and group `admin`, the joined path is
the doubled-apps template and the issued POST carries the form body
`permissions=31`. -/
theorem claim_C6_witness :
    goJoin2 "apps" ("apps/groupfolders/folders/" ++ Nat.repr 7 ++ "/groups/" ++ "admin")
      = "apps/apps/groupfolders/folders/7/groups/admin" ∧
    ((SetGroupPermissionsForGroupFolder envApps100 clientA 31 "admin" 7).1.headD
        default).url
      = envApps100.resolveRef clientA.Url "apps/apps/groupfolders/folders/7/groups/admin" ∧
    ((SetGroupPermissionsForGroupFolder envApps100 clientA 31 "admin" 7).1.headD
        default).reqBody
      = ReqBody.form "permissions=31" := by
  have h := claim_C6_permissions_endpoint envApps100 clientA 31 "admin" 7
    "apps/apps/groupfolders/folders/7/groups/admin"
    (by decide) (by decide) (by decide) (by decide) rfl
  have hr := h.2 ((SetGroupPermissionsForGroupFolder envApps100 clientA 31 "admin" 7).1.headD
    default) (by decide)
  exact ⟨by rw [h.1]; rfl, hr.2.1, hr.2.2⟩

end Cloud
